import Mathlib

/-!
# Verification of `tile-transcoder`'s resumable work queue and transcoding pipeline

A shallow embedding, in Lean 4, of the parts of `seung-lab/tile-transcoder`
(files `transcoder/resumable.py`, `transcoder/encoding.py`,
`transcoder/detectors.py`, `transcoder/cli.py`) that the checked claims are
about, together with theorems settling those claims.

The SQLite-backed queue is modelled as an explicit state (`DBState`) holding
the `filelist` rows, the `errors` rows and the single `stats` counter row;
each SQL statement of the Python source becomes a pure state transformation.
Timestamps are `Nat` milliseconds.  Python code paths that raise become
`Option`/explicit error results.
-/

namespace Transcoder

/-- Structural worker for `sip`: `fuel` is an upper bound on the number of
chunks (each chunk consumes at least one element, so the input length
suffices); it exists only to make the recursion structural. -/
def sipFuel : Nat → List α → Nat → List (List α)
  | 0, _, _ => []
  | _ + 1, [], _ => []
  | fuel + 1, x :: xs, n => (x :: xs).take n :: sipFuel fuel (xs.drop (n - 1)) n

/-- `cloudfiles.lib.sip(iter, n)`: splits a stream into chunks of at most `n`
items.  Used by `insert` and `mark_finished` with `n = SQLITE_MAX_PARAMS`.
Faithful to the Python behaviour for `n ≥ 1` (the only usage). -/
def sip (l : List α) (n : Nat) : List (List α) :=
  sipFuel l.length l n

/-- `SQLITE_MAX_PARAMS` from `resumable.py`. -/
def SQLITE_MAX_PARAMS : Nat := 999

/-- One row of the `filelist` table:
`id INTEGER PRIMARY KEY AUTOINCREMENT, filename TEXT, finished INTEGER, lease INTEGER`.
`finished`: 0 = pending, 1 = done, 2 = errored. -/
structure Item where
  id : Nat
  filename : String
  finished : Nat
  lease : Nat
  deriving DecidableEq, Repr

/-- One row of the `errors` table. -/
structure ErrorRow where
  filename : String
  error : String
  created : Nat
  deriving DecidableEq, Repr

/-- The state of one transfer database as far as the queue operations
touch it: the `filelist` rows, the `errors` rows, and the value of the
single `stats` row (`id = 1, key = 'finished'`). -/
structure DBState where
  filelist : List Item
  errors : List ErrorRow
  finishedCounter : Nat
  deriving DecidableEq, Repr

/-- `ResumableFileSet.create` + `insert(names)` on a fresh database:
all tables empty, counter 0, then rows `(filename, finished=0, lease=0)`
with `AUTOINCREMENT` ids 1, 2, …. -/
def freshState (names : List String) : DBState :=
  { filelist := names.enum.map (fun p => ⟨p.1 + 1, p.2, 0, 0⟩)
    errors := []
    finishedCounter := 0 }

/-- Availability predicate of the reservation query:
`finished = 0 AND lease < ts`. -/
def isAvailable (ts : Nat) (it : Item) : Bool :=
  it.finished == 0 && it.lease < ts

/-- The rows matched by `SELECT filename FROM filelist WHERE finished = 0 AND lease < ts`. -/
def availableItems (s : DBState) (ts : Nat) : List Item :=
  s.filelist.filter (isAvailable ts)

/-- `ResumableFileSet.record_error(filename, error)`: inserts an error row and
runs `UPDATE filelist SET finished = 2 WHERE filename = ?`. -/
def record_error (s : DBState) (filename error : String) (now : Nat) : DBState :=
  { s with
    errors := s.errors ++ [⟨filename, error, now⟩]
    filelist := s.filelist.map
      (fun it => if it.filename == filename then { it with finished := 2 } else it) }

/-- One chunk of `ResumableFileSet.mark_finished`:
`UPDATE filelist SET finished = 1 WHERE filename in (chunk)` followed by
`UPDATE stats SET value = value + len(chunk) WHERE id = 1`. -/
def markFinishedChunk (s : DBState) (chunk : List String) : DBState :=
  { s with
    filelist := s.filelist.map
      (fun it => if chunk.contains it.filename then { it with finished := 1 } else it)
    finishedCounter := s.finishedCounter + chunk.length }

/-- `ResumableFileSet.mark_finished(names)`: applies the two updates above for
each chunk of at most `SQLITE_MAX_PARAMS` names. -/
def mark_finished (s : DBState) (names : List String) : DBState :=
  (sip names SQLITE_MAX_PARAMS).foldl markFinishedChunk s

/-- One pass of the loop inside `ResumableFileSet.next` (lines 277-291 of
`resumable.py`), at the timestamp `ts` captured once before the loop:
inside `BEGIN EXCLUSIVE TRANSACTION`, select up to `resv` available rows,
then `UPDATE filelist SET lease = {ts} WHERE filename in (...)`.
Note the update writes `ts`, not `ts + lease_msec`: the local
`lease_msec = now_msec() + self.lease_msec` computed at line 287 is unused. -/
def reserveStep (s : DBState) (ts resv : Nat) : List String × DBState :=
  let rows := (availableItems s ts).take resv
  let names := rows.map (·.filename)
  if names.isEmpty then (names, s)
  else
    let fl := s.filelist.map
      (fun it => if names.contains it.filename then { it with lease := ts } else it)
    (names, { s with filelist := fl })

/-- `ResumableFileSet.total()`: `SELECT max(id) FROM filelist`.
On an empty table SQLite yields `NULL`, which `int(...)` cannot convert
(`_scalar_query` raises `TypeError`); hence the result is an `Option`.
(The Python-side `_total` cache does not change the value computed.) -/
def total (s : DBState) : Option Nat :=
  (s.filelist.map (·.id)).max?

/-- `ResumableFileSet.finished()`: `SELECT value FROM stats WHERE id = 1`. -/
def finishedCount (s : DBState) : Nat :=
  s.finishedCounter

/-- `ResumableFileSet.remaining()`: `self.total() - self.finished()`
(Python int subtraction, so the result is an integer; `none` models the
`TypeError` that `total()` raises on an empty `filelist`). -/
def remaining (s : DBState) : Option Int :=
  (total s).map (fun t => (t : Int) - (finishedCount s : Int))

/-- `ResumableFileSet.num_errors()`: `SELECT count(*) from errors`. -/
def numErrors (s : DBState) : Nat :=
  s.errors.length

/-- `ResumableFileSet.num_leased()`:
`SELECT count(filename) FROM filelist WHERE finished = 0 AND lease > ts`. -/
def numLeased (s : DBState) (ts : Nat) : Nat :=
  (s.filelist.filter (fun it => it.finished == 0 && ts < it.lease)).length

/-- Number of rows the reservation query would match. -/
def availableCount (s : DBState) (ts : Nat) : Nat :=
  (availableItems s ts).length

/-- The per-batch body of `ResumableTransfer.execute` (lines 438-495 of
`resumable.py`), restricted to its queue effects: for each reserved filename,
the worker may call `record_error` (missing file, decode/encode failure, …;
`errSel` says which names error in this run), and at the end of the batch it
calls `mark_finished(paths)` on the *whole* reserved batch, errored names
included. -/
def processBatch (s : DBState) (names : List String) (errSel : String → Bool)
    (now : Nat) : DBState :=
  let s1 := names.foldl
    (fun acc n => if errSel n then record_error acc n "error" now else acc) s
  mark_finished s1 names

/-- A single worker's `execute()` run to steady state: `execute` iterates
`sip(self.rfs, block_size)` over one `next()` generator, whose timestamp `ts`
is captured once; each pass reserves up to `resv` available rows, processes
them (possibly recording errors) and marks the batch finished, until a pass
selects no rows.  `fuel` bounds the number of passes (the Python loop runs
until the select is empty). -/
def workerRun : Nat → DBState → Nat → Nat → (String → Bool) → DBState
  | 0, s, _, _, _ => s
  | Nat.succ fuel, s, ts, resv, errSel =>
    let r := reserveStep s ts resv
    if r.1.isEmpty then s
    else workerRun fuel (processBatch r.2 r.1 errSel ts) ts resv errSel

/-! ## Transcoding pipeline (`transcoder/encoding.py`) -/

/-- `os.path.splitext`: splits `p` into `(root, ext)` where `ext` is the
suffix starting at the last dot of the final path component, provided some
non-dot character of that component precedes it (leading dots of a basename
never start an extension: `splitext ".bashrc" = (".bashrc", "")`). -/
def splitext (p : String) : String × String :=
  let cs := p.data
  let base := cs.length - (cs.reverse.takeWhile (· ≠ '/')).length
  let lead := base + ((cs.drop base).takeWhile (· = '.')).length
  let extLen := (cs.reverse.takeWhile (fun c => c ≠ '.' && c ≠ '/')).length
  let dotIdx := cs.length - extLen - 1
  if extLen < cs.length && cs.get? dotIdx = some '.' && lead ≤ dotIdx then
    (⟨cs.take dotIdx⟩, ⟨cs.drop dotIdx⟩)
  else
    (p, "")

/-- Python `s[1:]` on a string, over the character sequence. -/
def strTail (s : String) : String :=
  ⟨s.data.drop 1⟩

/-- Python `str.lower()` (the encodings and suffixes involved are ASCII),
over the character sequence. -/
def strLower (s : String) : String :=
  ⟨s.data.map Char.toLower⟩

/-- The encodings `decode(binary, encoding)` dispatches on; any other value
raises `EncodingNotSupported`.  Note `"jpg"` is absent. -/
def decodeSupported (encoding : String) : Bool :=
  encoding ∈ ["bmp", "png", "jpeg", "jpegxl", "jxl", "tiff", "tif"]

/-- The possible outcomes of `transcode_image` (the codecs themselves are
external and opaque, so the embedding records which path the control flow
takes and what filename it returns). -/
inductive XcodeResult where
  /-- `return (filename, binary)`: the input bytes and name pass through. -/
  | passthrough
  /-- `(basename + ".jxl", jpegxl_encode_jpeg(binary))` fast path. -/
  | fastJpegToJxl
  /-- `(basename + ".jpeg", jpegxl_decode_jpeg(binary))` fast path. -/
  | fastJxlToJpeg
  /-- full `decode` then `encode`; carries the parsed source encoding and
  the target encoding passed to `encode`. -/
  | decodeEncode (src dst : String)
  /-- `decode` raises `EncodingNotSupported src`. -/
  | decodeError (src : String)
  deriving DecidableEq, Repr

/-- The tail of `transcode_image` after the optional callback block:
the `src_encoding == encoding` pass-through test, the two no-decode
JPEG↔JPEG-XL fast paths, then decode + encode. -/
def transcodeTail (src enc : String) (level : Option Int) : XcodeResult :=
  if src = enc then .passthrough
  else if src = "jpeg" && (enc = "jpegxl" || enc = "jxl") && level.isNone then
    .fastJpegToJxl
  else if (src = "jpegxl" || src = "jxl") && enc = "jpeg" && level.isNone then
    .fastJxlToJpeg
  else if decodeSupported src then .decodeEncode src enc
  else .decodeError src

/-- `transcode_image(filename, binary, encoding, level, callback)`,
as control flow over the opaque codecs.  `callback = none` models no
detector; `callback = some b` models a detector whose call returns `b`.
With a callback the image is decoded eagerly (raising if the source
encoding is unsupported) and a `false` return short-circuits to
`return (filename, binary)`. -/
def transcode_image (filename : String) (encoding : String) (level : Option Int)
    (callback : Option Bool) : XcodeResult :=
  let ext := (splitext filename).2
  let src := strLower (strTail ext)
  let enc := strLower encoding
  match callback with
  | some b =>
    if !decodeSupported src then .decodeError src
    else if !b then .passthrough
    else transcodeTail src enc level
  | none => transcodeTail src enc level

/-- The filename returned by `transcode_image` for a given outcome
(`basename` = `splitext filename |>.1`). -/
def resultFilename (filename : String) : XcodeResult → Option String
  | .passthrough => some filename
  | .fastJpegToJxl => some ((splitext filename).1 ++ ".jxl")
  | .fastJxlToJpeg => some ((splitext filename).1 ++ ".jpeg")
  | .decodeEncode _ _ => some ((splitext filename).1 ++ ".<encoder ext>")
  | .decodeError _ => none

/-! ## Resin handling (`transcoder/detectors.py`) -/

/-- Outcome of one `log_resin(path, img)` call (`detectors.py` lines 93-103):
the boolean it returns to `transcode_image`, and whether it appended `path`
to the per-process log file. -/
structure LogResinOutcome where
  result : Bool
  logged : Bool
  deriving DecidableEq, Repr

/-- `log_resin`: returns `True` for a tissue tile; for a non-tissue tile
appends the path to the log file and returns `False`. -/
def log_resin (hasTissue : Bool) : LogResinOutcome :=
  if hasTissue then ⟨true, false⟩ else ⟨false, true⟩

/-- The per-tile pipeline in resin mode LOG: `make_resin_action` installs
`log_resin` as the detector callback of `transcode_image`.  Returns the
transcode outcome and whether the filename was appended to the log. -/
def logModePipeline (filename encoding : String) (level : Option Int)
    (hasTissue : Bool) : XcodeResult × Bool :=
  (transcode_image filename encoding level (some (log_resin hasTissue).result),
   (log_resin hasTissue).logged)

/-! ## `encode_jpeg` (`encoding.py` lines 217-239) -/

/-- Result of a Python call that can raise. -/
inductive PyResult (α : Type) where
  | ok (a : α)
  | valueError (msg : String)
  /-- `NameError`: the named local variable is read before assignment. -/
  | nameError (name : String)
  deriving DecidableEq, Repr

/-- `encode_jpeg(arr, quality)`: after the dtype check and the quality
default, line 226 evaluates `if num_channel == 1:` — but `num_channel`
is never assigned inside `encode_jpeg` (it is a local of `encode_jpegxl`
only), so the call raises `NameError` before reaching either
`simplejpeg.encode_jpeg` branch.  `shape` and `quality` are carried to
show the outcome does not depend on them. -/
def encode_jpeg (dtypeIsUint8 : Bool) (shape : List Nat) (quality : Option Int) :
    PyResult (List Nat) :=
  if !dtypeIsUint8 then .valueError "Only accepts uint8 arrays."
  else
    let _ := shape
    let _ := quality.getD 85
    .nameError "num_channel"

/-! ## Job metadata (`ResumableFileSet.create` / `.metadata`) -/

/-- The single `xfermeta` row as `create` stores it. -/
structure XferMeta where
  source : String
  dest : String
  recompress : Option String
  reencode : Option String
  encoding_level : Option Int
  encoding_options : String
  resin_handling : Int
  delete_original : Bool
  created : Nat
  deriving DecidableEq, Repr

/-- The serialization of `encoding_options` in `create`:
`";".join(f"{k}={int(v)}" ...)`. -/
def serializeOptions (opts : List (String × Int)) : String :=
  String.intercalate ";" (opts.map (fun p => p.1 ++ "=" ++ toString p.2))

/-- `ResumableFileSet.create(src, dest, recompress, reencode, level, ...)`:
the `xfermeta` row written. -/
def createMeta (src dest : String) (recompress reencode : Option String)
    (level : Option Int) (delete_original : Bool) (resin_handling : Int)
    (encoding_options : List (String × Int)) (now : Nat) : XferMeta :=
  { source := src, dest := dest, recompress := recompress, reencode := reencode
    encoding_level := level
    encoding_options := serializeOptions encoding_options
    resin_handling := resin_handling, delete_original := delete_original
    created := now }

/-- The dictionary `ResumableFileSet.metadata()` returns (the fields the
claims are about, after the normalizations at lines 234-253). -/
structure MetaOut where
  recompress : Option String
  reencode : Option String
  encoding_level : Option Int
  encoding_options : List (String × Int)
  deriving DecidableEq, Repr

/-- `if not v or v == '0': v = None` on a TEXT column (Python falsy values
of the stored `str | None`: `None` and `""`). -/
def normStr (v : Option String) : Option String :=
  match v with
  | none => none
  | some s => if s = "" || s = "0" then none else some s

/-- `if not v or v == '0': v = None` on the INTEGER column `encoding_level`
(the stored value is `int | None`, so `not v` is true for `None` and `0`;
the comparison with the *string* `'0'` is never true for an int). -/
def normLevel (v : Option Int) : Option Int :=
  match v with
  | none => none
  | some n => if n = 0 then none else some n

/-- The `encoding_options` branch of `metadata()`: empty (or `'0'`) becomes
`{}`, otherwise split on `";"` and on `"="` into a key → int dict.
(`int(...)` on the serialized values always succeeds; a malformed value is
immaterial to the claims and parses to 0 here.) -/
def parseOptions (s : String) : List (String × Int) :=
  if s = "" || s = "0" then []
  else (s.splitOn ";").map
    (fun pair => ((pair.splitOn "=").headD "",
                  (((pair.splitOn "=").getD 1 "").toInt?).getD 0))

/-- `ResumableFileSet.metadata()` on the stored row. -/
def metadata (m : XferMeta) : MetaOut :=
  { recompress := normStr m.recompress
    reencode := normStr m.reencode
    encoding_level := normLevel m.encoding_level
    encoding_options := parseOptions m.encoding_options }

/-! ## `status` (`transcoder/cli.py` lines 254-288) -/

/-- The methods the class body of `ResumableFileSet` defines
(`resumable.py` lines 41-348). -/
def resumableFileSetMethods : List String :=
  ["__init__", "__del__", "delete", "create", "errors", "record_error",
   "insert", "metadata", "mark_finished", "next", "_scalar_query", "total",
   "finished", "remaining", "num_leased", "num_errors", "has_errors",
   "available", "release", "__len__", "__iter__"]

/-- The `rt.rfs.<method>()` calls the `status` command performs, in
program order, before printing anything (`cli.py` lines 260-267). -/
def statusMethodCalls : List String :=
  ["total", "remaining", "num_leased", "num_errors",
   "original_bytes_processed", "transcoded_bytes_processed"]

/-- Attribute resolution: the first method `status` calls that the class
does not define; Python raises `AttributeError` there. -/
def statusAttributeError : Option String :=
  statusMethodCalls.find? (fun m => !(resumableFileSetMethods.contains m))

/-! ## Helper lemmas on `sip` and `mark_finished` -/

/-- The chunks of `sip` concatenate back to the input (for any positive
chunk size). -/
theorem sipFuel_flatten (n : Nat) (hn : 1 ≤ n) :
    ∀ (fuel : Nat) (l : List α), l.length ≤ fuel → (sipFuel fuel l n).flatten = l := by
  intro fuel
  induction fuel with
  | zero =>
    intro l hl
    rw [List.eq_nil_of_length_eq_zero (Nat.le_zero.mp hl)]
    rfl
  | succ f ih =>
    intro l hl
    cases l with
    | nil => rfl
    | cons x xs =>
      show ((x :: xs).take n :: sipFuel f (xs.drop (n - 1)) n).flatten = x :: xs
      have hxs : (xs.drop (n - 1)).length ≤ f := by
        rw [List.length_drop]
        simp only [List.length_cons] at hl
        omega
      rw [List.flatten_cons, ih (xs.drop (n - 1)) hxs]
      have hdrop : xs.drop (n - 1) = (x :: xs).drop n := by
        cases n with
        | zero => omega
        | succ m => simp
      rw [hdrop]
      exact List.take_append_drop n (x :: xs)

theorem sip_flatten (l : List α) (n : Nat) (hn : 1 ≤ n) : (sip l n).flatten = l :=
  sipFuel_flatten n hn l.length l (Nat.le_refl _)

theorem sipFuel_chunk_le (n : Nat) :
    ∀ (fuel : Nat) (l : List α), ∀ c ∈ sipFuel fuel l n, c.length ≤ n := by
  intro fuel
  induction fuel with
  | zero =>
    intro l c hc
    simp [sipFuel] at hc
  | succ f ih =>
    intro l c hc
    cases l with
    | nil => simp [sipFuel] at hc
    | cons x xs =>
      rw [show sipFuel (f + 1) (x :: xs) n
            = (x :: xs).take n :: sipFuel f (xs.drop (n - 1)) n from rfl,
        List.mem_cons] at hc
      rcases hc with hc | hc
      · subst hc
        exact List.length_take_le n (x :: xs)
      · exact ih (xs.drop (n - 1)) c hc

/-- Every chunk produced by `sip` has at most `n` elements. -/
theorem sip_chunk_le (l : List α) (n : Nat) :
    ∀ c ∈ sip l n, c.length ≤ n :=
  sipFuel_chunk_le n l.length l

/-- The chunk lengths of `sip` sum to the input length (positive chunk
size). -/
theorem sip_sum_lengths (l : List α) (n : Nat) (hn : 1 ≤ n) :
    ((sip l n).map List.length).sum = l.length := by
  have := congrArg List.length (sip_flatten l n hn)
  simpa [List.length_flatten] using this

/-- Pointwise update performed by `mark_finished names`:
`finished := 1` exactly on the rows whose filename is among `names`. -/
def setFin1 (names : List String) (it : Item) : Item :=
  if names.contains it.filename then { it with finished := 1 } else it

theorem foldl_markFinishedChunk_counter (cs : List (List String)) :
    ∀ s : DBState, (cs.foldl markFinishedChunk s).finishedCounter
      = s.finishedCounter + (cs.map List.length).sum := by
  induction cs with
  | nil => intro s; simp
  | cons c cs ih =>
    intro s
    simp only [List.foldl_cons, ih, List.map_cons, List.sum_cons]
    simp [markFinishedChunk]
    omega

theorem foldl_markFinishedChunk_filelist (cs : List (List String)) :
    ∀ s : DBState, (cs.foldl markFinishedChunk s).filelist
      = s.filelist.map (setFin1 cs.flatten) := by
  induction cs with
  | nil =>
    intro s
    simp [setFin1, List.map_id'']
  | cons c cs ih =>
    intro s
    simp only [List.foldl_cons, ih, markFinishedChunk, List.map_map, List.flatten_cons]
    apply List.map_congr_left
    intro it _
    by_cases hc : it.filename ∈ c <;> by_cases hj : it.filename ∈ cs.flatten <;>
      simp_all [Function.comp_apply, setFin1]

/-- `mark_finished` increments the `stats` counter by exactly the number of
names passed (unconditionally on the rows' prior state). -/
theorem mark_finished_counter (s : DBState) (names : List String) :
    (mark_finished s names).finishedCounter = s.finishedCounter + names.length := by
  rw [mark_finished, foldl_markFinishedChunk_counter,
    sip_sum_lengths names SQLITE_MAX_PARAMS (by decide)]

/-- The `filelist` after `mark_finished`. -/
theorem mark_finished_filelist (s : DBState) (names : List String) :
    (mark_finished s names).filelist = s.filelist.map (setFin1 names) := by
  rw [mark_finished, foldl_markFinishedChunk_filelist,
    sip_flatten names SQLITE_MAX_PARAMS (by decide)]

theorem mark_finished_errors (s : DBState) (names : List String) :
    (mark_finished s names).errors = s.errors := by
  rw [mark_finished]
  induction sip names SQLITE_MAX_PARAMS generalizing s with
  | nil => rfl
  | cons c cs ih => simpa [markFinishedChunk] using ih _

/-! ## Helper lemmas on `reserveStep`, `processBatch` and `workerRun` -/

/-- Pointwise update of `reserveStep`'s `UPDATE filelist SET lease = ts`. -/
def setLease (names : List String) (ts : Nat) (it : Item) : Item :=
  if names.contains it.filename then { it with lease := ts } else it

/-- Pointwise update of the `record_error` calls of one batch. -/
def setErr2 (ns : List String) (it : Item) : Item :=
  if ns.contains it.filename then { it with finished := 2 } else it

/-- Net pointwise effect of one reserve-process-mark batch on a row. -/
def batchUpdate (names : List String) (ts : Nat) (it : Item) : Item :=
  if names.contains it.filename then { it with finished := 1, lease := ts } else it

theorem reserveStep_fst (s : DBState) (ts resv : Nat) :
    (reserveStep s ts resv).1 = ((availableItems s ts).take resv).map (·.filename) := by
  rw [reserveStep]
  split <;> rfl

theorem reserveStep_filelist (s : DBState) (ts resv : Nat) :
    ((reserveStep s ts resv).2).filelist
      = s.filelist.map (setLease (reserveStep s ts resv).1 ts) := by
  rw [reserveStep]
  split
  · next hempty =>
    rw [List.isEmpty_iff] at hempty
    simp [hempty, setLease, List.map_id'']
  · rfl

theorem reserveStep_counter (s : DBState) (ts resv : Nat) :
    ((reserveStep s ts resv).2).finishedCounter = s.finishedCounter := by
  rw [reserveStep]
  split <;> rfl

theorem reserveStep_errors (s : DBState) (ts resv : Nat) :
    ((reserveStep s ts resv).2).errors = s.errors := by
  rw [reserveStep]
  split <;> rfl

theorem errFold_filelist (errSel : String → Bool) (e : String) (now : Nat)
    (names : List String) :
    ∀ s : DBState,
      (names.foldl (fun acc n => if errSel n then record_error acc n e now else acc)
        s).filelist
        = s.filelist.map (setErr2 (names.filter errSel)) := by
  induction names with
  | nil =>
    intro s
    simp [setErr2, List.map_id'']
  | cons n ns ih =>
    intro s
    by_cases hn : errSel n
    · rw [List.foldl_cons, if_pos hn, ih]
      simp only [record_error, List.map_map, List.filter_cons, hn, if_pos]
      apply List.map_congr_left
      intro it _
      by_cases hfn : it.filename = n <;>
        by_cases hmem : it.filename ∈ ns.filter errSel <;>
          simp_all [Function.comp_apply, setErr2]
    · simp only [List.foldl_cons, hn, if_neg, ih, List.filter_cons]
      simp [hn]

theorem errFold_counter (errSel : String → Bool) (e : String) (now : Nat)
    (names : List String) :
    ∀ s : DBState,
      (names.foldl (fun acc n => if errSel n then record_error acc n e now else acc)
        s).finishedCounter = s.finishedCounter := by
  induction names with
  | nil => intro s; rfl
  | cons n ns ih =>
    intro s
    by_cases hn : errSel n
    · rw [List.foldl_cons, if_pos hn, ih]
      rfl
    · rw [List.foldl_cons, if_neg hn, ih]

theorem processBatch_filelist (s : DBState) (names : List String)
    (errSel : String → Bool) (now : Nat) :
    (processBatch s names errSel now).filelist
      = s.filelist.map (fun it => setFin1 names (setErr2 (names.filter errSel) it)) := by
  rw [processBatch, mark_finished_filelist, errFold_filelist, List.map_map]
  rfl

theorem processBatch_counter (s : DBState) (names : List String)
    (errSel : String → Bool) (now : Nat) :
    (processBatch s names errSel now).finishedCounter
      = s.finishedCounter + names.length := by
  rw [processBatch, mark_finished_counter, errFold_counter]

/-- The composed pointwise effect of reserve + error recording + mark:
every selected row ends with `finished = 1, lease = ts`; others are
untouched. -/
theorem batch_filelist (s : DBState) (ts resv : Nat) (errSel : String → Bool) :
    (processBatch (reserveStep s ts resv).2 (reserveStep s ts resv).1 errSel ts).filelist
      = s.filelist.map (batchUpdate (reserveStep s ts resv).1 ts) := by
  rw [processBatch_filelist, reserveStep_filelist, List.map_map]
  apply List.map_congr_left
  intro it _
  set names := (reserveStep s ts resv).1 with hnames
  by_cases hc : it.filename ∈ names
  · by_cases he : it.filename ∈ names.filter errSel <;>
      simp_all [Function.comp_apply, setLease, setErr2, setFin1, batchUpdate]
  · have he : it.filename ∉ names.filter errSel := by
      intro h
      exact hc (List.mem_of_mem_filter h)
    simp_all [Function.comp_apply, setLease, setErr2, setFin1, batchUpdate]

theorem batch_counter (s : DBState) (ts resv : Nat) (errSel : String → Bool) :
    (processBatch (reserveStep s ts resv).2 (reserveStep s ts resv).1 errSel ts).finishedCounter
      = s.finishedCounter + (reserveStep s ts resv).1.length := by
  rw [processBatch_counter, reserveStep_counter]

theorem isAvailable_batchUpdate (names : List String) (ts : Nat) (it : Item) :
    isAvailable ts (batchUpdate names ts it)
      = (!names.contains it.filename && isAvailable ts it) := by
  by_cases hc : it.filename ∈ names <;> simp [batchUpdate, isAvailable, hc]

theorem batchUpdate_filename (names : List String) (ts : Nat) (it : Item) :
    (batchUpdate names ts it).filename = it.filename := by
  by_cases hc : it.filename ∈ names <;> simp [batchUpdate, hc]

theorem batchUpdate_id (names : List String) (ts : Nat) (it : Item) :
    (batchUpdate names ts it).id = it.id := by
  by_cases hc : it.filename ∈ names <;> simp [batchUpdate, hc]

/-- Rows that survive as available after dropping the reserved prefix:
with pairwise-distinct filenames, filtering out the filenames of the
`take r` prefix of a list is exactly `drop r`. -/
theorem filter_not_in_take_names (A : List Item) :
    ∀ r : Nat, (A.map (·.filename)).Nodup →
      A.filter (fun it => !((A.take r).map (·.filename)).contains it.filename)
        = A.drop r := by
  induction A with
  | nil => intro r _; simp
  | cons x xs ih =>
    intro r hnd
    cases r with
    | zero => simp
    | succ r =>
      simp only [List.take_succ_cons, List.map_cons, List.drop_succ_cons]
      have hx : x.filename ∉ xs.map (·.filename) := by
        simp only [List.map_cons, List.nodup_cons] at hnd
        exact hnd.1
      have hnd' : (xs.map (·.filename)).Nodup := by
        simp only [List.map_cons, List.nodup_cons] at hnd
        exact hnd.2
      rw [List.filter_cons]
      have hxfalse :
          (!((x.filename :: (xs.take r).map (·.filename)).contains x.filename)) = false := by
        simp
      rw [hxfalse, if_neg (show ¬(false = true) by simp)]
      rw [List.filter_congr (l := xs)
        (q := fun it => !(((xs.take r).map (·.filename)).contains it.filename))]
      · exact ih r hnd'
      · intro it hmem
        have hne : it.filename ≠ x.filename := by
          intro h
          exact hx (h ▸ List.mem_map_of_mem (·.filename) hmem)
        simp [hne]

theorem reserveStep_len_le (s : DBState) (ts resv : Nat) :
    (reserveStep s ts resv).1.length ≤ availableCount s ts := by
  rw [reserveStep_fst, availableCount, List.length_map, List.length_take]
  omega

theorem reserveStep_empty_iff (s : DBState) (ts resv : Nat) (hresv : 1 ≤ resv) :
    (reserveStep s ts resv).1 = [] ↔ availableCount s ts = 0 := by
  rw [reserveStep_fst, availableCount]
  constructor
  · intro h
    rcases List.take_eq_nil_iff.mp (List.map_eq_nil_iff.mp h) with h0 | h0
    · omega
    · simp [h0]
  · intro h
    simp [List.length_eq_zero.mp h]

theorem batch_filenames (s : DBState) (ts resv : Nat) (errSel : String → Bool) :
    (processBatch (reserveStep s ts resv).2 (reserveStep s ts resv).1 errSel
        ts).filelist.map (·.filename)
      = s.filelist.map (·.filename) := by
  rw [batch_filelist, List.map_map]
  apply List.map_congr_left
  intro it _
  exact batchUpdate_filename _ _ _

theorem batch_ids (s : DBState) (ts resv : Nat) (errSel : String → Bool) :
    (processBatch (reserveStep s ts resv).2 (reserveStep s ts resv).1 errSel
        ts).filelist.map (·.id)
      = s.filelist.map (·.id) := by
  rw [batch_filelist, List.map_map]
  apply List.map_congr_left
  intro it _
  exact batchUpdate_id _ _ _

/-- A completed batch removes exactly the reserved rows from the available
pool (filenames assumed pairwise distinct, as `init` inserts a listing). -/
theorem batch_availableCount (s : DBState) (ts resv : Nat) (errSel : String → Bool)
    (hnd : (s.filelist.map (·.filename)).Nodup) :
    availableCount
        (processBatch (reserveStep s ts resv).2 (reserveStep s ts resv).1 errSel ts) ts
      = availableCount s ts - (reserveStep s ts resv).1.length := by
  set names := (reserveStep s ts resv).1 with hnames
  have h1 : availableItems
      (processBatch (reserveStep s ts resv).2 names errSel ts) ts
      = (s.filelist.map (batchUpdate names ts)).filter (isAvailable ts) := by
    rw [availableItems, batch_filelist]
  have h2 : (s.filelist.map (batchUpdate names ts)).filter (isAvailable ts)
      = (s.filelist.filter (fun it => !names.contains it.filename
          && isAvailable ts it)).map (batchUpdate names ts) := by
    rw [List.filter_map]
    congr 1
    apply List.filter_congr
    intro it _
    exact isAvailable_batchUpdate names ts it
  have h3 : s.filelist.filter (fun it => !names.contains it.filename
        && isAvailable ts it)
      = (availableItems s ts).filter (fun it => !names.contains it.filename) := by
    rw [availableItems, List.filter_filter]
  have hndA : ((availableItems s ts).map (·.filename)).Nodup := by
    refine List.Nodup.sublist ?_ hnd
    exact List.Sublist.map _ (List.filter_sublist _)
  have h4 : (availableItems s ts).filter (fun it => !names.contains it.filename)
      = (availableItems s ts).drop resv := by
    have := filter_not_in_take_names (availableItems s ts) resv hndA
    rw [hnames, reserveStep_fst]
    exact this
  rw [availableCount, h1, h2, List.length_map, h3, h4, List.length_drop]
  rw [hnames, reserveStep_fst, List.length_map, List.length_take, availableCount]
  omega

/-- Running one worker with sufficient fuel drains the available pool and
increments the `stats` counter by exactly the number of rows that were
available; row ids (hence `total()`) are unchanged. -/
theorem workerRun_spec (ts resv : Nat) (errSel : String → Bool) (hresv : 1 ≤ resv) :
    ∀ (fuel : Nat) (s : DBState), (s.filelist.map (·.filename)).Nodup →
      availableCount s ts < fuel →
      (workerRun fuel s ts resv errSel).finishedCounter
          = s.finishedCounter + availableCount s ts ∧
      availableCount (workerRun fuel s ts resv errSel) ts = 0 ∧
      (workerRun fuel s ts resv errSel).filelist.map (·.id) = s.filelist.map (·.id) := by
  intro fuel
  induction fuel with
  | zero =>
    intro s _ h
    exact absurd h (Nat.not_lt_zero _)
  | succ fuel ih =>
    intro s hnd hlt
    simp only [workerRun]
    by_cases hemp : (reserveStep s ts resv).1.isEmpty
    · rw [if_pos hemp]
      have h0 : availableCount s ts = 0 :=
        (reserveStep_empty_iff s ts resv hresv).mp (List.isEmpty_iff.mp hemp)
      exact ⟨by omega, by omega, rfl⟩
    · rw [if_neg hemp]
      have hlen_pos : 1 ≤ (reserveStep s ts resv).1.length := by
        rcases h : (reserveStep s ts resv).1 with _ | ⟨a, l⟩
        · exact absurd (List.isEmpty_iff.mpr h) hemp
        · simp
      have hlen_le := reserveStep_len_le s ts resv
      have hA := batch_availableCount s ts resv errSel hnd
      have hcnt := batch_counter s ts resv errSel
      have hnd' : ((processBatch (reserveStep s ts resv).2 (reserveStep s ts resv).1
          errSel ts).filelist.map (·.filename)).Nodup := by
        rw [batch_filenames]
        exact hnd
      have hlt' : availableCount (processBatch (reserveStep s ts resv).2
          (reserveStep s ts resv).1 errSel ts) ts < fuel := by omega
      obtain ⟨ha, hb, hc⟩ := ih _ hnd' hlt'
      refine ⟨?_, hb, hc.trans (batch_ids s ts resv errSel)⟩
      rw [ha, hcnt]
      omega

/-! ## Fresh-database lemmas -/

theorem freshState_filenames (names : List String) :
    (freshState names).filelist.map (·.filename) = names := by
  simp only [freshState, List.map_map]
  have : ((fun it : Item => it.filename) ∘ fun p : Nat × String => Item.mk (p.1 + 1) p.2 0 0)
      = Prod.snd := by
    funext p
    rfl
  rw [this, List.enum_map_snd]

theorem freshState_ids (names : List String) :
    (freshState names).filelist.map (·.id) = List.range' 1 names.length := by
  simp only [freshState, List.map_map]
  have h1 : ((fun it : Item => it.id) ∘ fun p : Nat × String => Item.mk (p.1 + 1) p.2 0 0)
      = (fun p : Nat × String => p.1 + 1) := by
    funext p
    rfl
  rw [h1]
  have h2 : (fun p : Nat × String => p.1 + 1) = (fun n => n + 1) ∘ Prod.fst := by
    funext p
    rfl
  rw [h2, ← List.map_map, List.enum_map_fst]
  rw [List.range'_eq_map_range]
  apply List.map_congr_left
  intro i _
  omega

theorem freshState_available (names : List String) (ts : Nat) (hts : 1 ≤ ts) :
    availableCount (freshState names) ts = names.length := by
  have h0 : 0 < ts := hts
  rw [availableCount, availableItems, freshState]
  simp only [List.filter_map]
  rw [List.length_map]
  have : List.filter ((isAvailable ts) ∘ fun p : Nat × String => Item.mk (p.1 + 1) p.2 0 0)
      names.enum = names.enum := by
    apply List.filter_eq_self.mpr
    intro p _
    simp [isAvailable, h0]
  rw [this, List.enum_length]

theorem max?_concat (l : List Nat) (a : Nat) :
    (l ++ [a]).max? = some (max (l.max?.getD a) a) := by
  cases l with
  | nil => simp [List.max?]
  | cons x xs =>
    show ((x :: xs) ++ [a] : List Nat).max? = _
    rw [List.cons_append]
    show some (List.foldl max x (xs ++ [a])) = _
    rw [List.foldl_append]
    rfl

theorem max?_range' (n : Nat) :
    (List.range' 1 n).max? = if n = 0 then none else some n := by
  induction n with
  | zero => rfl
  | succ n ih =>
    rw [List.range'_concat, max?_concat, ih]
    cases n with
    | zero => simp
    | succ m =>
      simp only [Nat.succ_ne_zero, if_neg, ite_false, Option.getD_some]
      congr 1
      omega

/-- `total()` on a freshly seeded database is the number of rows inserted
(and raises on an empty one). -/
theorem total_freshState (names : List String) :
    total (freshState names) = if names.length = 0 then none else some names.length := by
  rw [total, freshState_ids, max?_range']

theorem setFin1_filename (names : List String) (it : Item) :
    (setFin1 names it).filename = it.filename := by
  by_cases hc : it.filename ∈ names <;> simp [setFin1, hc]

/-! ## Claim theorems -/

/-- Claim C1.  The claim says every item selected by `ResumableFileSet.next`
has its lease set to `now_ms + lease_msec` before its filename is yielded, so
that it cannot be selected again before that deadline.  The code instead
writes `lease = ts` (the select timestamp): with `lease_msec = 5000`, the
single pending item reserved at `ts = 1000` ends with lease 1000 (not 6000)
and is selected again by a reservation at `ts = 1001`, well before the
claimed deadline `6000`. -/
theorem reserve_lease_not_extended_at_failing_input :
    (reserveStep ⟨[⟨1, "a", 0, 0⟩], [], 0⟩ 1000 200).1 = ["a"] ∧
    ((reserveStep ⟨[⟨1, "a", 0, 0⟩], [], 0⟩ 1000 200).2).filelist
      = [⟨1, "a", 0, 1000⟩] ∧
    ((reserveStep ⟨[⟨1, "a", 0, 0⟩], [], 0⟩ 1000 200).2).filelist
      ≠ [⟨1, "a", 0, 1000 + 5000⟩] ∧
    (reserveStep ((reserveStep ⟨[⟨1, "a", 0, 0⟩], [], 0⟩ 1000 200).2) 1001 200).1
      = ["a"] ∧
    1001 < 1000 + 5000 := by decide

/-- Claim C2 (counterexample).  The claim says that at steady state
`finished() + numErrors() = total()`.  Run one worker to steady state on a
fresh queue of one item whose processing errors: `mark_finished` still
increments the counter for the errored item, so `finished() = 1`,
`numErrors() = 1`, but `total() = 1 ≠ 2`.  (`remaining() = 0` does hold.) -/
theorem steady_state_counts_counterexample :
    availableCount (workerRun 2 (freshState ["a"]) 1 200 (fun _ => true)) 1 = 0 ∧
    total (workerRun 2 (freshState ["a"]) 1 200 (fun _ => true)) = some 1 ∧
    finishedCount (workerRun 2 (freshState ["a"]) 1 200 (fun _ => true)) = 1 ∧
    numErrors (workerRun 2 (freshState ["a"]) 1 200 (fun _ => true)) = 1 ∧
    finishedCount (workerRun 2 (freshState ["a"]) 1 200 (fun _ => true))
        + numErrors (workerRun 2 (freshState ["a"]) 1 200 (fun _ => true)) ≠ 1 ∧
    remaining (workerRun 2 (freshState ["a"]) 1 200 (fun _ => true)) = some 0 := by
  decide

/-- Claim C2 (amended).  After `init` seeds distinct filenames and a worker
runs to steady state (errors allowed on any subset of items), the queue
satisfies `remaining() = 0` and `finished() = total()`; consequently
`finished() + numErrors()` equals `total() + numErrors()`, which equals
`total()` only when no item errored. -/
theorem worker_steady_state (names : List String) (ts resv fuel : Nat)
    (errSel : String → Bool) (hts : 1 ≤ ts) (hresv : 1 ≤ resv)
    (hnd : names.Nodup) (hfuel : names.length < fuel) :
    finishedCount (workerRun fuel (freshState names) ts resv errSel)
        = names.length ∧
    availableCount (workerRun fuel (freshState names) ts resv errSel) ts = 0 ∧
    total (workerRun fuel (freshState names) ts resv errSel)
        = total (freshState names) ∧
    (names ≠ [] →
      remaining (workerRun fuel (freshState names) ts resv errSel) = some 0) ∧
    finishedCount (workerRun fuel (freshState names) ts resv errSel)
          + numErrors (workerRun fuel (freshState names) ts resv errSel)
        = names.length
          + numErrors (workerRun fuel (freshState names) ts resv errSel) := by
  have hndf : ((freshState names).filelist.map (·.filename)).Nodup := by
    rw [freshState_filenames]
    exact hnd
  have hlt : availableCount (freshState names) ts < fuel := by
    rw [freshState_available names ts hts]
    exact hfuel
  obtain ⟨ha, hb, hc⟩ := workerRun_spec ts resv errSel hresv fuel (freshState names) hndf hlt
  have hfin : finishedCount (workerRun fuel (freshState names) ts resv errSel)
      = names.length := by
    rw [finishedCount, ha, freshState_available names ts hts]
    show (0 : Nat) + names.length = names.length
    omega
  have htot : total (workerRun fuel (freshState names) ts resv errSel)
      = total (freshState names) := by
    rw [total, total, hc]
  refine ⟨hfin, hb, htot, ?_, by omega⟩
  intro hne
  have hlen : names.length ≠ 0 := by
    intro h
    exact hne (List.length_eq_zero.mp h)
  rw [remaining, htot, total_freshState, if_neg hlen]
  simp [hfin]

/-- Claim C2 (witness for the amended theorem): two distinct items, the first
of which errors, one worker, steady state. -/
theorem worker_steady_state_witness :
    finishedCount (workerRun 3 (freshState ["a", "b"]) 1 200 (fun n => n == "a"))
        = (["a", "b"] : List String).length ∧
    availableCount (workerRun 3 (freshState ["a", "b"]) 1 200 (fun n => n == "a")) 1 = 0 ∧
    total (workerRun 3 (freshState ["a", "b"]) 1 200 (fun n => n == "a"))
        = total (freshState ["a", "b"]) ∧
    ((["a", "b"] : List String) ≠ [] →
      remaining (workerRun 3 (freshState ["a", "b"]) 1 200 (fun n => n == "a")) = some 0) ∧
    finishedCount (workerRun 3 (freshState ["a", "b"]) 1 200 (fun n => n == "a"))
          + numErrors (workerRun 3 (freshState ["a", "b"]) 1 200 (fun n => n == "a"))
        = (["a", "b"] : List String).length
          + numErrors (workerRun 3 (freshState ["a", "b"]) 1 200 (fun n => n == "a")) :=
  worker_steady_state ["a", "b"] 1 200 3 (fun n => n == "a")
    (by decide) (by decide) (by decide) (by decide)

/-- Claim C3 (counterexample).  The claim says
`remaining() = total() − finished − errored_count` and that on an empty queue
`remaining() = 0`.  In the code `remaining()` is `total() - finished()` only:
on a queue of 2 items with counter 1 and one errored item it returns 1 while
the claimed formula gives 0; and on an empty queue `total()` raises
(`SELECT max(id)` is NULL) instead of returning 0. -/
theorem remaining_counterexample :
    remaining ⟨[⟨1, "a", 1, 0⟩, ⟨2, "b", 2, 0⟩], [⟨"b", "missing file.", 5⟩], 1⟩
      = some 1 ∧
    ((total ⟨[⟨1, "a", 1, 0⟩, ⟨2, "b", 2, 0⟩], [⟨"b", "missing file.", 5⟩], 1⟩).getD 0 : Int)
        - finishedCount ⟨[⟨1, "a", 1, 0⟩, ⟨2, "b", 2, 0⟩], [⟨"b", "missing file.", 5⟩], 1⟩
        - (([⟨1, "a", 1, 0⟩, ⟨2, "b", 2, 0⟩] : List Item).filter
            (fun it => it.finished == 2)).length = 0 ∧
    (1 : Int) ≠ 0 ∧
    remaining (freshState []) = none ∧
    remaining (freshState []) ≠ some 0 := by decide

/-- Claim C3 (amended).  Whenever `total()` returns a value `t` (the
`filelist` is non-empty), `remaining()` returns `t` minus the finished
counter; the errored count is not subtracted, and on an empty queue
`remaining()` raises a `TypeError` (modelled `none`) rather than returning 0. -/
theorem remaining_eq_total_sub_finished (s : DBState) (t : Nat)
    (h : total s = some t) :
    remaining s = some ((t : Int) - (finishedCount s : Int)) := by
  simp [remaining, h]

/-- Claim C3 (witness for the amended theorem). -/
theorem remaining_eq_total_sub_finished_witness :
    total (freshState ["a"]) = some 1 ∧
    remaining (freshState ["a"])
      = some ((1 : Int) - (finishedCount (freshState ["a"]) : Int)) :=
  ⟨by decide, remaining_eq_total_sub_finished (freshState ["a"]) 1 (by decide)⟩

/-- Claim C4.  `mark_finished(names)` sets `finished = 1` on every row whose
filename is in `names`, increments the finished counter by exactly
`len(names)`, submits the updates in chunks of at most `SQLITE_MAX_PARAMS`
(999) bind parameters, and the counter increment is unconditional on the
rows' prior `finished` values: re-marking the same names re-increments. -/
theorem mark_finished_spec (s : DBState) (names : List String) :
    (mark_finished s names).finishedCounter = s.finishedCounter + names.length ∧
    (∀ it ∈ (mark_finished s names).filelist, it.filename ∈ names → it.finished = 1) ∧
    (∀ c ∈ sip names SQLITE_MAX_PARAMS, c.length ≤ SQLITE_MAX_PARAMS) ∧
    (mark_finished (mark_finished s names) names).finishedCounter
        = s.finishedCounter + 2 * names.length := by
  refine ⟨mark_finished_counter s names, ?_, sip_chunk_le names _, ?_⟩
  · intro it hmem hfn
    rw [mark_finished_filelist] at hmem
    obtain ⟨it0, _, rfl⟩ := List.mem_map.mp hmem
    rw [setFin1_filename] at hfn
    simp [setFin1, hfn]
  · rw [mark_finished_counter, mark_finished_counter]
    omega

/-- Claim C5.  The claim says two reservations running concurrently always
yield disjoint filename sets while neither lease has expired.  The exclusive
transaction does serialize them, but because the update writes
`lease = ts` instead of `ts + lease_msec`, a second reservation one
millisecond later (still far inside the first one's intended
`lease_msec = 5000` window) selects the same item: the yielded sets overlap. -/
theorem concurrent_reservers_overlap_at_failing_input :
    (reserveStep ⟨[⟨1, "tile.png", 0, 0⟩], [], 0⟩ 1000 200).1 = ["tile.png"] ∧
    (reserveStep ((reserveStep ⟨[⟨1, "tile.png", 0, 0⟩], [], 0⟩ 1000 200).2) 1001 200).1
      = ["tile.png"] ∧
    ¬ (∀ x ∈ (reserveStep ⟨[⟨1, "tile.png", 0, 0⟩], [], 0⟩ 1000 200).1,
        x ∉ (reserveStep ((reserveStep ⟨[⟨1, "tile.png", 0, 0⟩], [], 0⟩ 1000 200).2)
              1001 200).1) ∧
    1001 < 1000 + 5000 := by decide

/-- Claim C6 (counterexample).  The claim says `transcode_image` treats
`.jpg`/`.jpeg`, `.jxl`/`.jpegxl` and `.tif`/`.tiff` as equivalent when
parsing the source encoding, and passes bytes through unchanged when source
and target match under that equivalence.  The code compares the lowercased
suffix to the target *literally*: `a.tif` → `tiff` is re-encoded (not passed
through), `a.jpg` → `jpeg` raises `EncodingNotSupported("jpg")`, and
`a.jxl` → `jpegxl` is decoded and re-encoded. -/
theorem transcode_suffix_equiv_counterexample :
    transcode_image "a.tif" "tiff" none none = .decodeEncode "tif" "tiff" ∧
    transcode_image "a.tif" "tiff" none none ≠ .passthrough ∧
    transcode_image "a.jpg" "jpeg" none none = .decodeError "jpg" ∧
    transcode_image "a.jxl" "jpegxl" none none = .decodeEncode "jxl" "jpegxl" := by
  decide

/-- Claim C6 (amended).  `transcode_image` parses the source encoding as the
lowercased filename suffix and passes the input through unchanged (same
filename, same bytes) exactly when that string equals the lowercased target
encoding and no detector callback is installed; `.jpg`, and the pairs
`.tif`/`.tiff`, `.jxl`/`.jpegxl`, are not canonicalized for this test. -/
theorem transcode_passthrough_exact (filename encoding : String)
    (level : Option Int)
    (h : strLower (strTail (splitext filename).2) = strLower encoding) :
    transcode_image filename encoding level none = .passthrough ∧
    resultFilename filename (transcode_image filename encoding level none)
      = some filename := by
  have hres : transcode_image filename encoding level none = .passthrough := by
    simp [transcode_image, transcodeTail, h]
  refine ⟨hres, ?_⟩
  rw [hres]
  rfl

/-- Claim C6 (witness for the amended theorem). -/
theorem transcode_passthrough_exact_witness :
    strLower (strTail (splitext "a.TIF").2) = strLower "tif" ∧
    (transcode_image "a.TIF" "tif" none none = .passthrough ∧
      resultFilename "a.TIF" (transcode_image "a.TIF" "tif" none none)
        = some "a.TIF") :=
  ⟨by decide, transcode_passthrough_exact "a.TIF" "tif" none (by decide)⟩

/-- Claim C7.  The claim says `encode_jpeg` succeeds on every 1- or 3-channel
uint8 image and its failure branches are unreachable for such inputs.  In the
code `num_channel` is read at line 226 but never assigned inside
`encode_jpeg`, so every call that passes the dtype check raises `NameError`
(the spec's design notes flag this as the JPEG channel-count bug): no uint8
input of any shape can reach either `simplejpeg.encode_jpeg` branch. -/
theorem encode_jpeg_raises_name_error (shape : List Nat) (quality : Option Int) :
    encode_jpeg true shape quality = .nameError "num_channel" := by
  rfl

/-- Claim C8 (counterexample).  The claim says that in resin mode LOG a
non-tissue tile is logged and then still transcoded to the target encoding
exactly like a tissue tile.  In the code `log_resin` returns `False` for a
non-tissue tile and `transcode_image` then returns the *original* filename
and bytes (pass-through), while a tissue tile is decoded and re-encoded to
the target: the two paths produce different results. -/
theorem log_mode_counterexample :
    (logModePipeline "a.png" "jpeg" none false).1 = .passthrough ∧
    (logModePipeline "a.png" "jpeg" none false).2 = true ∧
    (logModePipeline "a.png" "jpeg" none true).1 = .decodeEncode "png" "jpeg" ∧
    (logModePipeline "a.png" "jpeg" none false).1
      ≠ (logModePipeline "a.png" "jpeg" none true).1 := by decide

/-- Claim C8 (amended).  In resin mode LOG a non-tissue tile has its filename
appended to the per-process log file and is kept — written out with its
original filename and bytes, *without* being transcoded to the target
encoding — while a tissue tile continues through the normal transcode path
(same outcome as with no detector installed). -/
theorem log_mode_keeps_original (filename encoding : String) (level : Option Int)
    (h : decodeSupported (strLower (strTail (splitext filename).2)) = true) :
    logModePipeline filename encoding level false = (.passthrough, true) ∧
    (logModePipeline filename encoding level true).1
      = transcode_image filename encoding level none ∧
    (logModePipeline filename encoding level true).2 = false := by
  refine ⟨?_, ?_, rfl⟩
  · simp [logModePipeline, log_resin, transcode_image, h]
  · simp [logModePipeline, log_resin, transcode_image, h]

/-- Claim C8 (witness for the amended theorem). -/
theorem log_mode_keeps_original_witness :
    decodeSupported (strLower (strTail (splitext "a.png").2)) = true ∧
    logModePipeline "a.png" "jpeg" none false = (.passthrough, true) :=
  ⟨by decide, (log_mode_keeps_original "a.png" "jpeg" none (by decide)).1⟩

/-- Claim C9.  The claim says `status` reports total, done, leased, errors
and remaining and completes without raising for every existing database.  The
`status` body unconditionally calls `rt.rfs.original_bytes_processed()` (and
then `transcoded_bytes_processed()`), but `ResumableFileSet` defines no such
method, so every invocation raises `AttributeError` before printing anything. -/
theorem status_raises_attribute_error :
    statusAttributeError = some "original_bytes_processed" ∧
    resumableFileSetMethods.contains "original_bytes_processed" = false ∧
    resumableFileSetMethods.contains "transcoded_bytes_processed" = false := by
  decide

/-- Claim C10.  A job created with encoding level 0 reads back as `None`
(`metadata()` normalizes falsy levels), identically to a job created with no
level; a stored `recompress`/`reencode` that is empty or `'0'` reads back as
`None`; and empty `encoding_options` reads back as the empty dict.  Hence
level 0 is indistinguishable from an unset level after a round-trip. -/
theorem metadata_zero_level_roundtrip (src dest : String) (rc re : Option String)
    (dor : Bool) (rh : Int) (now : Nat) :
    (metadata (createMeta src dest rc re (some 0) dor rh [] now)).encoding_level
        = none ∧
    metadata (createMeta src dest rc re (some 0) dor rh [] now)
        = metadata (createMeta src dest rc re none dor rh [] now) ∧
    (metadata (createMeta src dest (some "") (some "0") (some 0) dor rh [] now)).recompress
        = none ∧
    (metadata (createMeta src dest (some "0") (some "") (some 0) dor rh [] now)).reencode
        = none ∧
    (metadata (createMeta src dest rc re (some 0) dor rh [] now)).encoding_options
        = [] := by
  refine ⟨rfl, ?_, rfl, rfl, rfl⟩
  rfl

end Transcoder
